import Mathlib

/-!
# Offline durability and synchronization subsystem

A shallow embedding of the offline queue of the IT-Support-Portal repository:
the IndexedDB-backed `OfflineStore` and the `SyncManager` retry controller
(`src/services/offlineStore.ts`), together with the producer-side request
shapes from `src/services/apiService.ts`.

The store is modelled as an association list of autoincrement keys to stored
entries; the environment (whether IndexedDB opens, whether each replayed
submission succeeds, the current clock) is passed in as explicit parameters,
so every operation is a pure function of store state, manager state and
environment.
-/

namespace ITPortal

/-- `MAX_RETRY_ATTEMPTS` constant from `offlineStore.ts`. -/
def MAX_RETRY_ATTEMPTS : Nat := 10

/-- The value stored per queued ticket: the `entry` object built by
`OfflineStore.queueTicket` (`{ ticket, attempts, lastAttempt, createdAt }`).
The IndexedDB key lives outside the stored value. The ticket payload type is
a parameter `T`: the queue stores it verbatim and never inspects it. -/
structure StoredTicket (T : Type) where
  ticket : T
  attempts : Nat
  lastAttempt : Nat
  createdAt : Nat
deriving DecidableEq, Repr

/-- State of the `OfflineStore` class: the contents of the single object
store (association list in storage iteration order, keys autoincremented via
`nextKey`), plus the `available` flag and whether `this.db` is non-null. -/
structure OfflineStore (T : Type) where
  db : List (Nat × StoredTicket T)
  nextKey : Nat
  available : Bool
  dbOpen : Bool
deriving DecidableEq, Repr

namespace OfflineStore

variable {T : Type}

/-- `isAvailable()`: `this.available && this.db !== null`. -/
def isAvailable (s : OfflineStore T) : Bool :=
  s.available && s.dbOpen

/-- `init()`: idempotent open. `idbOk` says whether IndexedDB can be opened
in this runtime; on failure the store marks itself unavailable instead of
throwing. -/
def init (idbOk : Bool) (s : OfflineStore T) : OfflineStore T :=
  if s.dbOpen then s
  else if idbOk then { s with dbOpen := true }
  else { s with available := false }

/-- Raw IndexedDB `store.get(key)` on the object-store contents. -/
def dbGet (k : Nat) : List (Nat × StoredTicket T) → Option (StoredTicket T)
  | [] => none
  | p :: ps => if p.1 = k then some p.2 else dbGet k ps

/-- Lookup of a key in the store (reads the object store directly). -/
def lookup (k : Nat) (s : OfflineStore T) : Option (StoredTicket T) :=
  dbGet k s.db

/-- `queueTicket(ticket)`: no-op when unavailable, otherwise `store.add`
of a fresh entry with `attempts = 0`, `lastAttempt = 0`, `createdAt = now`
under the next autoincrement key. -/
def queueTicket (ticket : T) (now : Nat) (s : OfflineStore T) : OfflineStore T :=
  if s.isAvailable then
    { s with db := s.db ++ [(s.nextKey, ⟨ticket, 0, 0, now⟩)],
             nextKey := s.nextKey + 1 }
  else s

/-- `getPendingTickets()`: empty when unavailable, otherwise every entry
together with its IndexedDB key, in storage iteration order. -/
def getPendingTickets (s : OfflineStore T) : List (Nat × StoredTicket T) :=
  if s.isAvailable then s.db else []

/-- `removeTicket(key)`: no-op when unavailable, otherwise `store.delete(key)`. -/
def removeTicket (k : Nat) (s : OfflineStore T) : OfflineStore T :=
  if s.isAvailable then { s with db := s.db.filter (fun p => p.1 ≠ k) } else s

/-- The `Partial<PendingTicket>` updates object passed to `updateTicket`:
only the `attempts` and `lastAttempt` fields are ever supplied. -/
structure TicketUpdates where
  attempts : Option Nat
  lastAttempt : Option Nat
deriving DecidableEq, Repr

/-- `updateTicket(key, updates)`: no-op when unavailable; reads the current
value, returns unchanged if the key is absent, otherwise merges
`updates.attempts ?? current.attempts` and `updates.lastAttempt ??
current.lastAttempt` into the current record and puts it back under the
same key. -/
def updateTicket (k : Nat) (u : TicketUpdates) (s : OfflineStore T) : OfflineStore T :=
  if s.isAvailable then
    match s.lookup k with
    | none => s
    | some current =>
      let merged : StoredTicket T :=
        { current with attempts := u.attempts.getD current.attempts,
                       lastAttempt := u.lastAttempt.getD current.lastAttempt }
      { s with db := s.db.map (fun p => if p.1 = k then (k, merged) else p) }
  else s

/-- `getPendingCount()`: 0 when unavailable, otherwise `store.count()`. -/
def getPendingCount (s : OfflineStore T) : Nat :=
  if s.isAvailable then s.db.length else 0

/-- `clear()`: no-op when unavailable, otherwise `store.clear()`. -/
def clear (s : OfflineStore T) : OfflineStore T :=
  if s.isAvailable then { s with db := [] } else s

/-- Well-formedness maintained by the store: keys are pairwise distinct
(each autoincrement key is assigned once) and below the next key to assign. -/
def WF (s : OfflineStore T) : Prop :=
  (s.db.map Prod.fst).Nodup ∧ ∀ p ∈ s.db, p.1 < s.nextKey

instance (s : OfflineStore T) : Decidable (WF s) :=
  inferInstanceAs
    (Decidable ((s.db.map Prod.fst).Nodup ∧ ∀ p ∈ s.db, p.1 < s.nextKey))

end OfflineStore

/-- In-memory state of the `SyncManager` class. Listener callbacks are
modelled by identity tokens of type `L` (JS removes listeners by function
identity, `l !== listener`). `intervalActive` is `intervalId !== null`. -/
structure SyncState (L : Type) where
  isSyncing : Bool
  intervalActive : Bool
  monitoringStarted : Bool
  listeners : List L
deriving DecidableEq, Repr

/-- Result of one `syncPendingTickets()` invocation: the updated store and
manager state, the `{synced, failed}` tallies, and the listener
notifications delivered (each listener paired with the count it was
called with). -/
structure SyncResult (T L : Type) where
  store : OfflineStore T
  mgr : SyncState L
  synced : Nat
  failed : Nat
  notified : List (L × Nat)
deriving DecidableEq, Repr

namespace SyncManager

variable {T L : Type}

open OfflineStore

/-- The body of the `for (const entry of pending)` loop in
`syncPendingTickets`, acting on the accumulator (store, synced, failed).
`submitOk k` tells whether the direct `fetch` replay of the record stored
under key `k` comes back with `response.ok` (a non-ok response and a thrown
network error take the same branch in the source). -/
def processEntry (submitOk : Nat → Bool) (now : Nat)
    (acc : OfflineStore T × Nat × Nat) (entry : Nat × StoredTicket T) :
    OfflineStore T × Nat × Nat :=
  if entry.2.attempts ≥ MAX_RETRY_ATTEMPTS then
    (acc.1, acc.2.1, acc.2.2 + 1)
  else if submitOk entry.1 then
    (acc.1.removeTicket entry.1, acc.2.1 + 1, acc.2.2)
  else
    (acc.1.updateTicket entry.1 ⟨some (entry.2.attempts + 1), some now⟩,
     acc.2.1, acc.2.2 + 1)

/-- `notifyListeners(count)`: every registered listener is invoked once with
the count (a throwing listener is swallowed, so delivery is unconditional).
Returns the list of deliveries. -/
def notifyListeners (count : Nat) (m : SyncState L) : List (L × Nat) :=
  m.listeners.map (fun l => (l, count))

/-- `syncPendingTickets()`. Guarded by `isSyncing`; inits the store, lists
pending entries, folds the per-entry loop over them, clears `isSyncing`,
re-reads the count, notifies listeners, and cancels the periodic timer when
the refreshed count is zero. -/
def syncPendingTickets (idbOk : Bool) (submitOk : Nat → Bool) (now : Nat)
    (s : OfflineStore T) (m : SyncState L) : SyncResult T L :=
  if m.isSyncing then ⟨s, m, 0, 0, []⟩
  else
    let s₁ := s.init idbOk
    let pending := s₁.getPendingTickets
    let res := pending.foldl (processEntry submitOk now) (s₁, 0, 0)
    let s₂ := res.1
    let newCount := s₂.getPendingCount
    let m' : SyncState L :=
      { m with isSyncing := false,
               intervalActive := if newCount = 0 then false else m.intervalActive }
    ⟨s₂, m', res.2.1, res.2.2, notifyListeners newCount m⟩

/-- `onCountChange(listener)`: pushes the listener. (The returned
unsubscribe closure is `unsubscribe` below.) -/
def onCountChange (l : L) (m : SyncState L) : SyncState L :=
  { m with listeners := m.listeners ++ [l] }

/-- The unsubscribe closure returned by `onCountChange`:
`this.listeners = this.listeners.filter((x) => x !== listener)`. -/
def unsubscribe [DecidableEq L] (l : L) (m : SyncState L) : SyncState L :=
  { m with listeners := m.listeners.filter (fun x => x ≠ l) }

/-- `startPeriodicSync()`: starts the interval unless one is active. -/
def startPeriodicSync (m : SyncState L) : SyncState L :=
  if m.intervalActive then m else { m with intervalActive := true }

/-- `ensurePeriodicSync()`: delegates to `startPeriodicSync`. -/
def ensurePeriodicSync (m : SyncState L) : SyncState L :=
  startPeriodicSync m

/-- `startMonitoring()`: idempotent; registers the online handler and
starts the periodic timer. -/
def startMonitoring (m : SyncState L) : SyncState L :=
  if m.monitoringStarted then m
  else startPeriodicSync { m with monitoringStarted := true }

end SyncManager

/-- The operations that touch the queue at runtime, with their environment
inputs. `enqueue` is `apiService._queueForOffline` (init, queueTicket,
notifyListeners, ensurePeriodicSync); `pass` is a direct
`syncPendingTickets()` call (manual flush or the `online` handler); `tick`
is one firing of the 30-second interval callback. -/
inductive Event (T : Type) where
  | enqueue (ticket : T) (now : Nat) (idbOk : Bool)
  | pass (idbOk : Bool) (submitOk : Nat → Bool) (now : Nat)
  | tick (idbOk : Bool) (submitOk : Nat → Bool) (now : Nat)
  | clearStore
  | ensurePeriodic

namespace Event

variable {T L : Type}

open OfflineStore SyncManager

/-- One event applied to the combined (store, manager) state. A `tick` fires
only while the interval is active; its callback re-reads the count, syncs
when positive and otherwise cancels the interval. -/
def step (e : Event T) (st : OfflineStore T × SyncState L) :
    OfflineStore T × SyncState L :=
  match e with
  | .enqueue t now idbOk =>
      ((st.1.init idbOk).queueTicket t now, ensurePeriodicSync st.2)
  | .pass idbOk submitOk now =>
      let r := syncPendingTickets idbOk submitOk now st.1 st.2
      (r.store, r.mgr)
  | .tick idbOk submitOk now =>
      if st.2.intervalActive then
        if st.1.getPendingCount > 0 then
          let r := syncPendingTickets idbOk submitOk now st.1 st.2
          (r.store, r.mgr)
        else (st.1, { st.2 with intervalActive := false })
      else st
  | .clearStore => (st.1.clear, st.2)
  | .ensurePeriodic => (st.1, ensurePeriodicSync st.2)

/-- A sequence of events applied in order. -/
def run (es : List (Event T)) (st : OfflineStore T × SyncState L) :
    OfflineStore T × SyncState L :=
  es.foldl (fun st e => step e st) st

end Event

/-! ## Basic lemmas about the store operations -/

namespace OfflineStore

variable {T : Type}

theorem dbGet_cons (p : Nat × StoredTicket T) (ps : List (Nat × StoredTicket T))
    (k : Nat) : dbGet k (p :: ps) = if p.1 = k then some p.2 else dbGet k ps := rfl

theorem filter_ne_cons_self {p : Nat × StoredTicket T} {k : Nat} (hp : p.1 = k)
    (ps : List (Nat × StoredTicket T)) :
    (p :: ps).filter (fun q => q.1 ≠ k) = ps.filter (fun q => q.1 ≠ k) := by
  simp [List.filter_cons, hp]

theorem filter_ne_cons_other {p : Nat × StoredTicket T} {k : Nat} (hp : p.1 ≠ k)
    (ps : List (Nat × StoredTicket T)) :
    (p :: ps).filter (fun q => q.1 ≠ k) = p :: ps.filter (fun q => q.1 ≠ k) := by
  simp [List.filter_cons, hp]

theorem dbGet_append_left {db : List (Nat × StoredTicket T)} {k : Nat}
    {r : StoredTicket T} (h : dbGet k db = some r) (l : List (Nat × StoredTicket T)) :
    dbGet k (db ++ l) = some r := by
  induction db with
  | nil => exact absurd h (by simp [dbGet])
  | cons p ps ih =>
    rw [List.cons_append, dbGet_cons]
    rw [dbGet_cons] at h
    by_cases hp : p.1 = k
    · rw [if_pos hp] at h ⊢; exact h
    · rw [if_neg hp] at h ⊢; exact ih h

theorem dbGet_filter_ne_self {db : List (Nat × StoredTicket T)} (k : Nat) :
    dbGet k (db.filter (fun q => q.1 ≠ k)) = none := by
  induction db with
  | nil => rfl
  | cons p ps ih =>
    by_cases hp : p.1 = k
    · rw [filter_ne_cons_self hp, ih]
    · rw [filter_ne_cons_other hp, dbGet_cons, if_neg hp, ih]

theorem dbGet_filter_ne_other {db : List (Nat × StoredTicket T)} {k k' : Nat}
    (h : k' ≠ k) : dbGet k' (db.filter (fun q => q.1 ≠ k)) = dbGet k' db := by
  induction db with
  | nil => rfl
  | cons p ps ih =>
    by_cases hp : p.1 = k
    · rw [filter_ne_cons_self hp, ih, dbGet_cons,
          if_neg (fun hc : p.1 = k' => h (hc ▸ hp))]
    · rw [filter_ne_cons_other hp, dbGet_cons, dbGet_cons]
      by_cases hk : p.1 = k'
      · rw [if_pos hk, if_pos hk]
      · rw [if_neg hk, if_neg hk, ih]

theorem dbGet_mapReplace_self {db : List (Nat × StoredTicket T)} {k : Nat}
    {r : StoredTicket T} (h : dbGet k db = some r) (m : StoredTicket T) :
    dbGet k (db.map (fun p => if p.1 = k then (k, m) else p)) = some m := by
  induction db with
  | nil => exact absurd h (by simp [dbGet])
  | cons p ps ih =>
    rw [List.map_cons]
    by_cases hp : p.1 = k
    · rw [if_pos hp, dbGet_cons, if_pos rfl]
    · rw [dbGet_cons, if_neg hp] at h
      rw [if_neg hp, dbGet_cons, if_neg hp]
      exact ih h

theorem dbGet_mapReplace_other {db : List (Nat × StoredTicket T)} {k k' : Nat}
    (h : k' ≠ k) (m : StoredTicket T) :
    dbGet k' (db.map (fun p => if p.1 = k then (k, m) else p)) = dbGet k' db := by
  induction db with
  | nil => rfl
  | cons p ps ih =>
    rw [List.map_cons, dbGet_cons, dbGet_cons]
    by_cases hp : p.1 = k
    · rw [if_pos hp, if_neg (fun hc : p.1 = k' => h (hc ▸ hp)),
          if_neg (show ¬((k, m).1 = k') from fun hc => h hc.symm), ih]
    · rw [if_neg hp]
      by_cases hk : p.1 = k'
      · rw [if_pos hk, if_pos hk]
      · rw [if_neg hk, if_neg hk, ih]

/-- With pairwise-distinct keys, every listed pair is found by `dbGet`. -/
theorem dbGet_of_mem_nodup {db : List (Nat × StoredTicket T)}
    (hnd : (db.map Prod.fst).Nodup) {p : Nat × StoredTicket T} (hp : p ∈ db) :
    dbGet p.1 db = some p.2 := by
  induction db with
  | nil => simp at hp
  | cons q qs ih =>
    simp only [List.map_cons, List.nodup_cons] at hnd
    rcases List.mem_cons.mp hp with h | h
    · simp [dbGet, h]
    · have hq : q.1 ≠ p.1 := by
        intro hc
        exact hnd.1 (hc ▸ List.mem_map_of_mem Prod.fst h)
      simp only [dbGet, if_neg hq]
      exact ih hnd.2 h

theorem dbGet_some_mem {db : List (Nat × StoredTicket T)} {k : Nat}
    {r : StoredTicket T} (h : dbGet k db = some r) : (k, r) ∈ db := by
  induction db with
  | nil => exact absurd h (by simp [dbGet])
  | cons p ps ih =>
    rw [dbGet_cons] at h
    by_cases hp : p.1 = k
    · rw [if_pos hp] at h
      have hpkr : p = (k, r) := by
        rcases p with ⟨p1, p2⟩
        simp only at hp
        simp only [Option.some_inj] at h
        rw [Prod.mk.injEq]
        exact ⟨hp, h⟩
      rw [hpkr]
      exact List.mem_cons_self _ _
    · rw [if_neg hp] at h
      exact List.mem_cons_of_mem _ (ih h)

theorem dbGet_append_none {db : List (Nat × StoredTicket T)} {k : Nat}
    (h : dbGet k db = none) {p : Nat × StoredTicket T} (hk : p.1 ≠ k) :
    dbGet k (db ++ [p]) = none := by
  induction db with
  | nil => simp [dbGet, hk]
  | cons q qs ih =>
    rw [dbGet_cons] at h
    rw [List.cons_append, dbGet_cons]
    by_cases hq : q.1 = k
    · rw [if_pos hq] at h; exact absurd h (by simp)
    · rw [if_neg hq] at h ⊢
      exact ih h

theorem isAvailable_removeTicket (k : Nat) (s : OfflineStore T) :
    (s.removeTicket k).isAvailable = s.isAvailable := by
  simp only [removeTicket]; split <;> rfl

theorem isAvailable_updateTicket (k : Nat) (u : TicketUpdates) (s : OfflineStore T) :
    (s.updateTicket k u).isAvailable = s.isAvailable := by
  simp only [updateTicket]
  split
  · split <;> rfl
  · rfl

theorem nextKey_removeTicket (k : Nat) (s : OfflineStore T) :
    (s.removeTicket k).nextKey = s.nextKey := by
  simp only [removeTicket]; split <;> rfl

theorem nextKey_updateTicket (k : Nat) (u : TicketUpdates) (s : OfflineStore T) :
    (s.updateTicket k u).nextKey = s.nextKey := by
  simp only [updateTicket]
  split
  · split <;> rfl
  · rfl

theorem lookup_removeTicket_self {s : OfflineStore T} (h : s.isAvailable = true)
    (k : Nat) : (s.removeTicket k).lookup k = none := by
  simp only [removeTicket, h, if_true, lookup]
  exact dbGet_filter_ne_self k

theorem lookup_removeTicket_other {s : OfflineStore T} {k k' : Nat}
    (h : k' ≠ k) : (s.removeTicket k).lookup k' = s.lookup k' := by
  simp only [removeTicket, lookup]
  split
  · exact dbGet_filter_ne_other h
  · rfl

theorem lookup_updateTicket_other {s : OfflineStore T} {k k' : Nat}
    (h : k' ≠ k) (u : TicketUpdates) :
    (s.updateTicket k u).lookup k' = s.lookup k' := by
  simp only [updateTicket]
  split
  · split
    · rfl
    · simp only [lookup]
      exact dbGet_mapReplace_other h _
  · rfl

theorem lookup_updateTicket_self {s : OfflineStore T} {k : Nat}
    {r : StoredTicket T} (hr : s.lookup k = some r) (h : s.isAvailable = true)
    (u : TicketUpdates) :
    (s.updateTicket k u).lookup k =
      some { r with attempts := u.attempts.getD r.attempts,
                    lastAttempt := u.lastAttempt.getD r.lastAttempt } := by
  have hr' : dbGet k s.db = some r := hr
  simp only [updateTicket, lookup, hr', h, if_true]
  exact dbGet_mapReplace_self hr' _

theorem lookup_updateTicket_none {s : OfflineStore T} {k : Nat}
    (hr : s.lookup k = none) (u : TicketUpdates) : s.updateTicket k u = s := by
  have hr' : dbGet k s.db = none := hr
  simp only [updateTicket, lookup, hr']
  split <;> rfl

theorem dbGet_filter_none {db : List (Nat × StoredTicket T)} {k : Nat}
    (h : dbGet k db = none) (q : Nat × StoredTicket T → Bool) :
    dbGet k (db.filter q) = none := by
  induction db with
  | nil => rfl
  | cons p ps ih =>
    rw [dbGet_cons] at h
    by_cases hp : p.1 = k
    · rw [if_pos hp] at h; exact absurd h (by simp)
    · rw [if_neg hp] at h
      rw [List.filter_cons]
      split
      · rw [dbGet_cons, if_neg hp]; exact ih h
      · exact ih h

theorem lookup_removeTicket_none {s : OfflineStore T} {k k' : Nat}
    (h : s.lookup k = none) : (s.removeTicket k').lookup k = none := by
  simp only [removeTicket]
  split
  · exact dbGet_filter_none h _
  · exact h

theorem lookup_queueTicket_of_some {s : OfflineStore T} {k : Nat}
    {r : StoredTicket T} (h : s.lookup k = some r) (t : T) (now : Nat) :
    (s.queueTicket t now).lookup k = some r := by
  simp only [queueTicket]
  split
  · exact dbGet_append_left h _
  · exact h

theorem keys_mapReplace (db : List (Nat × StoredTicket T)) (k : Nat)
    (m : StoredTicket T) :
    (db.map (fun p => if p.1 = k then (k, m) else p)).map Prod.fst =
      db.map Prod.fst := by
  induction db with
  | nil => rfl
  | cons p ps ih =>
    rw [List.map_cons, List.map_cons, List.map_cons, ih]
    by_cases hp : p.1 = k
    · rw [if_pos hp, hp]
    · rw [if_neg hp]

theorem db_init (idbOk : Bool) (s : OfflineStore T) : (s.init idbOk).db = s.db := by
  simp only [init]; split
  · rfl
  · split <;> rfl

theorem nextKey_init (idbOk : Bool) (s : OfflineStore T) :
    (s.init idbOk).nextKey = s.nextKey := by
  simp only [init]; split
  · rfl
  · split <;> rfl

theorem WF_init {s : OfflineStore T} (h : WF s) (idbOk : Bool) :
    WF (s.init idbOk) := by
  unfold WF at h ⊢
  rw [db_init, nextKey_init]
  exact h

theorem WF_queueTicket {s : OfflineStore T} (h : WF s) (t : T) (now : Nat) :
    WF (s.queueTicket t now) := by
  unfold WF at h ⊢
  unfold queueTicket
  split
  · constructor
    · simp only [List.map_append, List.map_cons, List.map_nil]
      rw [List.nodup_append]
      refine ⟨h.1, List.nodup_singleton _, ?_⟩
      intro a ha hb
      rw [List.mem_singleton] at hb
      rcases List.mem_map.mp ha with ⟨p, hp, hpa⟩
      have := h.2 p hp
      omega
    · intro p hp
      rcases List.mem_append.mp hp with hp | hp
      · exact Nat.lt_succ_of_lt (h.2 p hp)
      · rw [List.mem_singleton] at hp
        subst hp
        exact Nat.lt_succ_self _
  · exact h

theorem WF_removeTicket {s : OfflineStore T} (h : WF s) (k : Nat) :
    WF (s.removeTicket k) := by
  unfold WF at h ⊢
  unfold removeTicket
  split
  · refine ⟨h.1.sublist (List.Sublist.map Prod.fst (List.filter_sublist _)), ?_⟩
    intro p hp
    exact h.2 p (List.mem_of_mem_filter hp)
  · exact h

theorem lookup_init (idbOk : Bool) (s : OfflineStore T) (k : Nat) :
    (s.init idbOk).lookup k = s.lookup k := by
  simp only [lookup, db_init]

theorem nextKey_clear (s : OfflineStore T) : s.clear.nextKey = s.nextKey := by
  simp only [clear]; split <;> rfl

theorem WF_clear {s : OfflineStore T} (h : WF s) : WF s.clear := by
  unfold WF at h ⊢
  unfold clear
  split
  · exact ⟨List.nodup_nil, by intro p hp; exact absurd hp (List.not_mem_nil p)⟩
  · exact h

theorem lookup_clear {s : OfflineStore T} {k : Nat} {r : StoredTicket T}
    (h : s.clear.lookup k = some r) : s.lookup k = some r := by
  unfold clear at h
  by_cases hav : s.isAvailable = true
  · rw [if_pos hav] at h
    exact absurd h (by simp [lookup, dbGet])
  · rw [if_neg hav] at h
    exact h

theorem lookup_clear_none {s : OfflineStore T} {k : Nat}
    (h : s.lookup k = none) : s.clear.lookup k = none := by
  unfold clear
  split
  · rfl
  · exact h

theorem nextKey_queueTicket_le (t : T) (now : Nat) (s : OfflineStore T) :
    s.nextKey ≤ (s.queueTicket t now).nextKey := by
  unfold queueTicket
  split
  · exact Nat.le_succ _
  · exact Nat.le_refl _

theorem lookup_queueTicket_none {s : OfflineStore T} {k : Nat}
    (h : s.lookup k = none) (hk : k < s.nextKey) (t : T) (now : Nat) :
    (s.queueTicket t now).lookup k = none := by
  unfold queueTicket
  split
  · exact dbGet_append_none h (fun hc : s.nextKey = k => by omega)
  · exact h

theorem WF_updateTicket {s : OfflineStore T} (h : WF s) (k : Nat)
    (u : TicketUpdates) : WF (s.updateTicket k u) := by
  unfold WF at h ⊢
  unfold updateTicket
  split
  · split
    · exact h
    · constructor
      · rw [keys_mapReplace]
        exact h.1
      · intro p hp
        rcases List.mem_map.mp hp with ⟨q, hq, hqp⟩
        have hk : p.1 = q.1 := by
          subst hqp
          by_cases hcond : q.1 = k
          · rw [if_pos hcond, hcond]
          · rw [if_neg hcond]
        rw [hk]
        exact h.2 q hq
  · exact h

end OfflineStore

/-! ## Lemmas about the sync-pass loop -/

namespace SyncManager

variable {T L : Type}

open OfflineStore

theorem processEntry_mk (submitOk : Nat → Bool) (now : Nat)
    (acc : OfflineStore T × Nat × Nat) (k : Nat) (r : StoredTicket T) :
    processEntry submitOk now acc (k, r) =
      if r.attempts ≥ MAX_RETRY_ATTEMPTS then (acc.1, acc.2.1, acc.2.2 + 1)
      else if submitOk k then (acc.1.removeTicket k, acc.2.1 + 1, acc.2.2)
      else (acc.1.updateTicket k ⟨some (r.attempts + 1), some now⟩,
            acc.2.1, acc.2.2 + 1) := rfl

theorem processEntry_isAvailable (submitOk : Nat → Bool) (now : Nat)
    (acc : OfflineStore T × Nat × Nat) (e : Nat × StoredTicket T) :
    ((processEntry submitOk now acc e).1).isAvailable = acc.1.isAvailable := by
  by_cases h1 : e.2.attempts ≥ MAX_RETRY_ATTEMPTS
  · simp [processEntry, h1]
  · by_cases h2 : submitOk e.1
    · simp [processEntry, h1, h2, isAvailable_removeTicket]
    · simp [processEntry, h1, h2, isAvailable_updateTicket]

theorem processEntry_nextKey (submitOk : Nat → Bool) (now : Nat)
    (acc : OfflineStore T × Nat × Nat) (e : Nat × StoredTicket T) :
    ((processEntry submitOk now acc e).1).nextKey = acc.1.nextKey := by
  by_cases h1 : e.2.attempts ≥ MAX_RETRY_ATTEMPTS
  · simp [processEntry, h1]
  · by_cases h2 : submitOk e.1
    · simp [processEntry, h1, h2, nextKey_removeTicket]
    · simp [processEntry, h1, h2, nextKey_updateTicket]

theorem processEntry_WF {submitOk : Nat → Bool} {now : Nat}
    {acc : OfflineStore T × Nat × Nat} (h : WF acc.1) (e : Nat × StoredTicket T) :
    WF (processEntry submitOk now acc e).1 := by
  by_cases h1 : e.2.attempts ≥ MAX_RETRY_ATTEMPTS
  · simpa [processEntry, h1] using h
  · by_cases h2 : submitOk e.1
    · simpa [processEntry, h1, h2] using WF_removeTicket h e.1
    · simpa [processEntry, h1, h2] using WF_updateTicket h e.1 _

theorem processEntry_lookup_other {k : Nat} {e : Nat × StoredTicket T}
    (h : k ≠ e.1) (submitOk : Nat → Bool) (now : Nat)
    (acc : OfflineStore T × Nat × Nat) :
    ((processEntry submitOk now acc e).1).lookup k = acc.1.lookup k := by
  by_cases h1 : e.2.attempts ≥ MAX_RETRY_ATTEMPTS
  · simp [processEntry, h1]
  · by_cases h2 : submitOk e.1
    · simp [processEntry, h1, h2, lookup_removeTicket_other h]
    · simp [processEntry, h1, h2, lookup_updateTicket_other h]

theorem processEntry_lookup_none {k : Nat} {acc : OfflineStore T × Nat × Nat}
    (h : acc.1.lookup k = none) (submitOk : Nat → Bool) (now : Nat)
    (e : Nat × StoredTicket T) :
    ((processEntry submitOk now acc e).1).lookup k = none := by
  by_cases h1 : e.2.attempts ≥ MAX_RETRY_ATTEMPTS
  · simpa [processEntry, h1] using h
  · by_cases h2 : submitOk e.1
    · simpa [processEntry, h1, h2] using lookup_removeTicket_none h
    · by_cases hk : k = e.1
      · subst hk
        simpa [processEntry, h1, h2, lookup_updateTicket_none h] using h
      · simpa [processEntry, h1, h2] using (lookup_updateTicket_other hk _).trans h

theorem fold_isAvailable (submitOk : Nat → Bool) (now : Nat) :
    ∀ (entries : List (Nat × StoredTicket T)) (acc : OfflineStore T × Nat × Nat),
    ((entries.foldl (processEntry submitOk now) acc).1).isAvailable =
      acc.1.isAvailable := by
  intro entries
  induction entries with
  | nil => intro acc; rfl
  | cons e es ih =>
    intro acc
    rw [List.foldl_cons, ih, processEntry_isAvailable]

theorem fold_nextKey (submitOk : Nat → Bool) (now : Nat) :
    ∀ (entries : List (Nat × StoredTicket T)) (acc : OfflineStore T × Nat × Nat),
    ((entries.foldl (processEntry submitOk now) acc).1).nextKey = acc.1.nextKey := by
  intro entries
  induction entries with
  | nil => intro acc; rfl
  | cons e es ih =>
    intro acc
    rw [List.foldl_cons, ih, processEntry_nextKey]

theorem fold_WF {submitOk : Nat → Bool} {now : Nat} :
    ∀ {entries : List (Nat × StoredTicket T)} {acc : OfflineStore T × Nat × Nat},
    WF acc.1 → WF (entries.foldl (processEntry submitOk now) acc).1 := by
  intro entries
  induction entries with
  | nil => intro acc h; exact h
  | cons e es ih =>
    intro acc h
    rw [List.foldl_cons]
    exact ih (processEntry_WF h e)

theorem fold_lookup_none {submitOk : Nat → Bool} {now : Nat} {k : Nat} :
    ∀ {entries : List (Nat × StoredTicket T)} {acc : OfflineStore T × Nat × Nat},
    acc.1.lookup k = none →
    ((entries.foldl (processEntry submitOk now) acc).1).lookup k = none := by
  intro entries
  induction entries with
  | nil => intro acc h; exact h
  | cons e es ih =>
    intro acc h
    rw [List.foldl_cons]
    exact ih (processEntry_lookup_none h submitOk now e)

theorem fold_lookup_notMem {submitOk : Nat → Bool} {now : Nat} {k : Nat} :
    ∀ {entries : List (Nat × StoredTicket T)} {acc : OfflineStore T × Nat × Nat},
    k ∉ entries.map Prod.fst →
    ((entries.foldl (processEntry submitOk now) acc).1).lookup k =
      acc.1.lookup k := by
  intro entries
  induction entries with
  | nil => intro acc _; rfl
  | cons e es ih =>
    intro acc hk
    rw [List.map_cons, List.mem_cons] at hk
    push_neg at hk
    rw [List.foldl_cons, ih hk.2, processEntry_lookup_other hk.1]

/-- Per-key characterization of one sync pass over a list of entries that
agrees with the store: a dead-lettered entry is untouched, a successfully
replayed entry is removed, a failed entry gets `attempts + 1` and
`lastAttempt = now`. -/
theorem fold_lookup_mem {submitOk : Nat → Bool} {now : Nat} {k : Nat}
    {r : StoredTicket T} :
    ∀ {entries : List (Nat × StoredTicket T)} {acc : OfflineStore T × Nat × Nat},
    (entries.map Prod.fst).Nodup →
    (∀ e ∈ entries, acc.1.lookup e.1 = some e.2) →
    acc.1.isAvailable = true →
    (k, r) ∈ entries →
    ((entries.foldl (processEntry submitOk now) acc).1).lookup k =
      (if r.attempts ≥ MAX_RETRY_ATTEMPTS then some r
       else if submitOk k then none
       else some { r with attempts := r.attempts + 1, lastAttempt := now }) := by
  intro entries
  induction entries with
  | nil => intro acc _ _ _ hmem; exact absurd hmem (List.not_mem_nil _)
  | cons e es ih =>
    intro acc hnd hag hav hmem
    rw [List.map_cons, List.nodup_cons] at hnd
    rw [List.foldl_cons]
    rcases List.mem_cons.mp hmem with he | he
    · subst he
      have hk : k ∉ es.map Prod.fst := hnd.1
      rw [fold_lookup_notMem hk, processEntry_mk]
      have hlk : acc.1.lookup k = some r := hag (k, r) (List.mem_cons_self _ es)
      by_cases h1 : r.attempts ≥ MAX_RETRY_ATTEMPTS
      · simp only [if_pos h1]
        exact hlk
      · by_cases h2 : submitOk k = true
        · simp only [if_neg h1, if_pos h2]
          exact lookup_removeTicket_self hav k
        · simp only [if_neg h1, if_neg h2]
          rw [lookup_updateTicket_self hlk hav]
          rfl
    · apply ih hnd.2 ?_ ?_ he
      · intro e' he'
        have hne : e'.1 ≠ e.1 := by
          intro hc
          exact hnd.1 (hc ▸ List.mem_map_of_mem Prod.fst he')
        rw [processEntry_lookup_other hne]
        exact hag e' (List.mem_cons_of_mem e he')
      · rw [processEntry_isAvailable]
        exact hav

/-- The tallies of a pass depend only on the listed entries and the submit
oracle: `synced` counts non-dead-letter entries whose replay succeeded,
`failed` counts dead-letter entries plus non-dead-letter entries whose
replay failed. -/
theorem fold_tallies (submitOk : Nat → Bool) (now : Nat) :
    ∀ (entries : List (Nat × StoredTicket T)) (st : OfflineStore T) (a b : Nat),
    (entries.foldl (processEntry submitOk now) (st, a, b)).2 =
      (a + entries.countP
            (fun e => decide (e.2.attempts < MAX_RETRY_ATTEMPTS) && submitOk e.1),
       b + entries.countP
            (fun e => decide (e.2.attempts ≥ MAX_RETRY_ATTEMPTS) || !submitOk e.1)) := by
  intro entries
  induction entries with
  | nil => intro st a b; simp
  | cons e es ih =>
    intro st a b
    rw [List.foldl_cons]
    by_cases h1 : e.2.attempts ≥ MAX_RETRY_ATTEMPTS
    · have h1' : ¬ e.2.attempts < MAX_RETRY_ATTEMPTS := by omega
      simp only [processEntry, if_pos h1]
      rw [ih]
      simp [List.countP_cons, h1, h1']
      omega
    · have h1' : e.2.attempts < MAX_RETRY_ATTEMPTS := by omega
      by_cases h2 : submitOk e.1
      · simp only [processEntry, if_neg h1, h2, if_true]
        rw [ih]
        simp [List.countP_cons, h1, h1', h2]
        omega
      · have h2' : submitOk e.1 = false := Bool.eq_false_iff.mpr h2
        simp only [processEntry, if_neg h1, h2', Bool.false_eq_true, if_false]
        rw [ih]
        simp [List.countP_cons, h1, h1', h2']
        omega

theorem fold_store_all_dead {submitOk : Nat → Bool} {now : Nat} :
    ∀ {entries : List (Nat × StoredTicket T)} {acc : OfflineStore T × Nat × Nat},
    (∀ e ∈ entries, e.2.attempts ≥ MAX_RETRY_ATTEMPTS) →
    (entries.foldl (processEntry submitOk now) acc).1 = acc.1 := by
  intro entries
  induction entries with
  | nil => intro acc _; rfl
  | cons e es ih =>
    intro acc hdead
    rw [List.foldl_cons]
    have he : e.2.attempts ≥ MAX_RETRY_ATTEMPTS := hdead e (List.mem_cons_self e es)
    have hstep : processEntry submitOk now acc e = (acc.1, acc.2.1, acc.2.2 + 1) := by
      simp [processEntry, he]
    rw [hstep]
    exact ih (fun e' he' => hdead e' (List.mem_cons_of_mem e he'))

/-- Unfolding of `syncPendingTickets` when no pass is in flight. -/
theorem syncPendingTickets_run {idbOk : Bool} {submitOk : Nat → Bool} {now : Nat}
    {s : OfflineStore T} {m : SyncState L} (hsync : m.isSyncing = false) :
    syncPendingTickets idbOk submitOk now s m =
      ⟨((s.init idbOk).getPendingTickets.foldl (processEntry submitOk now)
          (s.init idbOk, 0, 0)).1,
       { m with isSyncing := false,
                intervalActive :=
                  if ((s.init idbOk).getPendingTickets.foldl (processEntry submitOk now)
                        (s.init idbOk, 0, 0)).1.getPendingCount = 0 then false
                  else m.intervalActive },
       ((s.init idbOk).getPendingTickets.foldl (processEntry submitOk now)
          (s.init idbOk, 0, 0)).2.1,
       ((s.init idbOk).getPendingTickets.foldl (processEntry submitOk now)
          (s.init idbOk, 0, 0)).2.2,
       notifyListeners
         (((s.init idbOk).getPendingTickets.foldl (processEntry submitOk now)
             (s.init idbOk, 0, 0)).1.getPendingCount) m⟩ := by
  simp only [syncPendingTickets, hsync, Bool.false_eq_true, if_false]

/-- Membership in the listed pending entries gives: the store is available
after init, the entry is in the database, and the listed record is exactly
the stored one. -/
theorem mem_getPendingTickets {s : OfflineStore T} {k : Nat} {r : StoredTicket T}
    (hwf : WF s) (hmem : (k, r) ∈ s.getPendingTickets) :
    s.isAvailable = true ∧ (k, r) ∈ s.db ∧ s.lookup k = some r := by
  unfold getPendingTickets at hmem
  by_cases hav : s.isAvailable = true
  · rw [if_pos hav] at hmem
    exact ⟨hav, hmem, dbGet_of_mem_nodup hwf.1 hmem⟩
  · rw [if_neg hav] at hmem
    exact absurd hmem (List.not_mem_nil _)

/-- Per-key effect of one full `syncPendingTickets` pass on a listed record. -/
theorem syncPendingTickets_lookup_listed {idbOk : Bool} {submitOk : Nat → Bool}
    {now : Nat} {s : OfflineStore T} {m : SyncState L} {k : Nat}
    {r : StoredTicket T} (hwf : WF s) (hsync : m.isSyncing = false)
    (hmem : (k, r) ∈ (s.init idbOk).getPendingTickets) :
    (syncPendingTickets idbOk submitOk now s m).store.lookup k =
      (if r.attempts ≥ MAX_RETRY_ATTEMPTS then some r
       else if submitOk k then none
       else some { r with attempts := r.attempts + 1, lastAttempt := now }) := by
  rw [syncPendingTickets_run hsync]
  obtain ⟨hav, hdb, hlk⟩ := mem_getPendingTickets (WF_init hwf idbOk) hmem
  have hnd := (WF_init hwf idbOk).1
  have hpend : (s.init idbOk).getPendingTickets = (s.init idbOk).db := by
    unfold OfflineStore.getPendingTickets
    rw [if_pos hav]
  rw [hpend]
  exact fold_lookup_mem hnd (fun e he => dbGet_of_mem_nodup hnd he) hav hdb

/-- A key not listed by the pass is untouched by it. -/
theorem syncPendingTickets_lookup_unlisted {idbOk : Bool} {submitOk : Nat → Bool}
    {now : Nat} {s : OfflineStore T} {m : SyncState L} {k : Nat}
    (hsync : m.isSyncing = false)
    (hk : k ∉ ((s.init idbOk).getPendingTickets).map Prod.fst) :
    (syncPendingTickets idbOk submitOk now s m).store.lookup k =
      s.lookup k := by
  rw [syncPendingTickets_run hsync]
  exact (fold_lookup_notMem hk).trans (lookup_init idbOk s k)

/-- The `{synced, failed}` tallies of a completed pass, as counts over the
listed entries. -/
theorem syncPendingTickets_tallies (idbOk : Bool) (submitOk : Nat → Bool)
    (now : Nat) (s : OfflineStore T) {m : SyncState L}
    (hsync : m.isSyncing = false) :
    (syncPendingTickets idbOk submitOk now s m).synced =
      ((s.init idbOk).getPendingTickets).countP
        (fun e => decide (e.2.attempts < MAX_RETRY_ATTEMPTS) && submitOk e.1) ∧
    (syncPendingTickets idbOk submitOk now s m).failed =
      ((s.init idbOk).getPendingTickets).countP
        (fun e => decide (e.2.attempts ≥ MAX_RETRY_ATTEMPTS) || !submitOk e.1) := by
  have h := fold_tallies (T := T) submitOk now ((s.init idbOk).getPendingTickets)
    (s.init idbOk) 0 0
  constructor
  · simp only [syncPendingTickets_run hsync]
    rw [h]
    simp
  · simp only [syncPendingTickets_run hsync]
    rw [h]
    simp

/-- Monotonicity of a record's `attempts` across one pass. -/
theorem syncPendingTickets_lookup_mono {idbOk : Bool} {submitOk : Nat → Bool}
    {now : Nat} {s : OfflineStore T} {m : SyncState L} {k : Nat}
    {r r' : StoredTicket T} (hwf : WF s) (h : s.lookup k = some r)
    (h' : (syncPendingTickets idbOk submitOk now s m).store.lookup k = some r') :
    r.attempts ≤ r'.attempts := by
  by_cases hsync : m.isSyncing = true
  · have hst : (syncPendingTickets idbOk submitOk now s m).store = s := by
      simp [syncPendingTickets, hsync]
    rw [hst, h] at h'
    exact le_of_eq (congrArg StoredTicket.attempts (Option.some.inj h'))
  · have hsync' : m.isSyncing = false := by
      cases hb : m.isSyncing
      · rfl
      · exact absurd hb hsync
    have hlk₁ : (s.init idbOk).lookup k = some r := by
      rw [lookup_init]; exact h
    by_cases hk : k ∈ ((s.init idbOk).getPendingTickets).map Prod.fst
    · rcases List.mem_map.mp hk with ⟨e, hmem, hfst⟩
      rcases e with ⟨k₂, r₂⟩
      simp only at hfst
      subst hfst
      obtain ⟨hav, hdb, hlk₂⟩ := mem_getPendingTickets (WF_init hwf idbOk) hmem
      have hr₂ : r₂ = r := by
        rw [hlk₁] at hlk₂
        exact (Option.some.inj hlk₂).symm
      subst hr₂
      rw [syncPendingTickets_lookup_listed hwf hsync' hmem] at h'
      by_cases h1 : r₂.attempts ≥ MAX_RETRY_ATTEMPTS
      · rw [if_pos h1] at h'
        exact le_of_eq (congrArg StoredTicket.attempts (Option.some.inj h'))
      · rw [if_neg h1] at h'
        by_cases h2 : submitOk k₂ = true
        · rw [if_pos h2] at h'
          exact absurd h' (by simp)
        · rw [if_neg h2] at h'
          have heq : StoredTicket.mk r₂.ticket (r₂.attempts + 1) now r₂.createdAt = r' :=
            Option.some.inj h'
          rw [← heq]
          exact Nat.le_succ _
    · rw [syncPendingTickets_lookup_unlisted hsync' hk, h] at h'
      exact le_of_eq (congrArg StoredTicket.attempts (Option.some.inj h'))

/-- A pass never resurrects an absent key (given the key is below the
autoincrement counter, it can also never be re-assigned). -/
theorem syncPendingTickets_lookup_none {idbOk : Bool} {submitOk : Nat → Bool}
    {now : Nat} {s : OfflineStore T} {m : SyncState L} {k : Nat}
    (h : s.lookup k = none) :
    (syncPendingTickets idbOk submitOk now s m).store.lookup k = none := by
  by_cases hsync : m.isSyncing = true
  · have hst : (syncPendingTickets idbOk submitOk now s m).store = s := by
      simp [syncPendingTickets, hsync]
    rw [hst]
    exact h
  · have hsync' : m.isSyncing = false := by
      cases hb : m.isSyncing
      · rfl
      · exact absurd hb hsync
    rw [syncPendingTickets_run hsync']
    exact fold_lookup_none (by rw [lookup_init]; exact h)

theorem syncPendingTickets_store_WF {idbOk : Bool} {submitOk : Nat → Bool}
    {now : Nat} {s : OfflineStore T} {m : SyncState L} (hwf : WF s) :
    WF (syncPendingTickets idbOk submitOk now s m).store := by
  by_cases hsync : m.isSyncing = true
  · have hst : (syncPendingTickets idbOk submitOk now s m).store = s := by
      simp [syncPendingTickets, hsync]
    rw [hst]; exact hwf
  · have hsync' : m.isSyncing = false := by
      cases hb : m.isSyncing
      · rfl
      · exact absurd hb hsync
    rw [syncPendingTickets_run hsync']
    exact fold_WF (WF_init hwf idbOk)

theorem syncPendingTickets_nextKey {idbOk : Bool} {submitOk : Nat → Bool}
    {now : Nat} {s : OfflineStore T} {m : SyncState L} :
    (syncPendingTickets idbOk submitOk now s m).store.nextKey = s.nextKey := by
  by_cases hsync : m.isSyncing = true
  · simp [syncPendingTickets, hsync]
  · have hsync' : m.isSyncing = false := by
      cases hb : m.isSyncing
      · rfl
      · exact absurd hb hsync
    rw [syncPendingTickets_run hsync']
    exact (fold_nextKey submitOk now _ _).trans (nextKey_init idbOk s)

end SyncManager

/-! ## Lemmas about runtime event sequences -/

namespace Event

variable {T L : Type}

open OfflineStore SyncManager

/-- Whether an event is a sync pass or a periodic tick (the events that can
occur between a self-quiesce and the next enqueue). -/
def isPassOrTick : Event T → Bool
  | .pass _ _ _ => true
  | .tick _ _ _ => true
  | _ => false

theorem step_enqueue (t : T) (now : Nat) (idbOk : Bool) (s : OfflineStore T)
    (m : SyncState L) :
    step (Event.enqueue t now idbOk) (s, m) =
      ((s.init idbOk).queueTicket t now, ensurePeriodicSync m) := rfl

theorem step_pass (idbOk : Bool) (submitOk : Nat → Bool) (now : Nat)
    (s : OfflineStore T) (m : SyncState L) :
    step (Event.pass idbOk submitOk now) (s, m) =
      ((syncPendingTickets idbOk submitOk now s m).store,
       (syncPendingTickets idbOk submitOk now s m).mgr) := rfl

theorem step_tick (idbOk : Bool) (submitOk : Nat → Bool) (now : Nat)
    (s : OfflineStore T) (m : SyncState L) :
    step (Event.tick idbOk submitOk now) (s, m) =
      if m.intervalActive then
        if s.getPendingCount > 0 then
          ((syncPendingTickets idbOk submitOk now s m).store,
           (syncPendingTickets idbOk submitOk now s m).mgr)
        else (s, { m with intervalActive := false })
      else (s, m) := rfl

theorem step_clearStore (s : OfflineStore T) (m : SyncState L) :
    step (Event.clearStore) (s, m) = (s.clear, m) := rfl

theorem step_ensurePeriodic (s : OfflineStore T) (m : SyncState L) :
    step (Event.ensurePeriodic) (s, m) = (s, ensurePeriodicSync m) := rfl

theorem step_WF {e : Event T} {s : OfflineStore T} {m : SyncState L}
    (hwf : WF s) : WF (step e (s, m)).1 := by
  cases e with
  | enqueue t now idbOk =>
    rw [step_enqueue]
    exact WF_queueTicket (WF_init hwf idbOk) t now
  | pass idbOk submitOk now =>
    rw [step_pass]
    exact syncPendingTickets_store_WF hwf
  | tick idbOk submitOk now =>
    rw [step_tick]
    by_cases h1 : m.intervalActive = true
    · rw [if_pos h1]
      by_cases h2 : s.getPendingCount > 0
      · rw [if_pos h2]
        exact syncPendingTickets_store_WF hwf
      · rw [if_neg h2]
        exact hwf
    · rw [if_neg h1]
      exact hwf
  | clearStore =>
    rw [step_clearStore]
    exact WF_clear hwf
  | ensurePeriodic =>
    rw [step_ensurePeriodic]
    exact hwf

theorem step_lookup_mono {e : Event T} {s : OfflineStore T} {m : SyncState L}
    {k : Nat} {r r' : StoredTicket T} (hwf : WF s) (h : s.lookup k = some r)
    (h' : (step e (s, m)).1.lookup k = some r') : r.attempts ≤ r'.attempts := by
  cases e with
  | enqueue t now idbOk =>
    rw [step_enqueue] at h'
    have hstep : ((s.init idbOk).queueTicket t now).lookup k = some r :=
      lookup_queueTicket_of_some (by rw [lookup_init]; exact h) t now
    rw [hstep] at h'
    exact le_of_eq (congrArg StoredTicket.attempts (Option.some.inj h'))
  | pass idbOk submitOk now =>
    rw [step_pass] at h'
    exact syncPendingTickets_lookup_mono hwf h h'
  | tick idbOk submitOk now =>
    rw [step_tick] at h'
    by_cases h1 : m.intervalActive = true
    · rw [if_pos h1] at h'
      by_cases h2 : s.getPendingCount > 0
      · rw [if_pos h2] at h'
        exact syncPendingTickets_lookup_mono hwf h h'
      · rw [if_neg h2] at h'
        rw [show ((s, { m with intervalActive := false }) :
              OfflineStore T × SyncState L).1 = s from rfl, h] at h'
        exact le_of_eq (congrArg StoredTicket.attempts (Option.some.inj h'))
    · rw [if_neg h1] at h'
      rw [show ((s, m) : OfflineStore T × SyncState L).1 = s from rfl, h] at h'
      exact le_of_eq (congrArg StoredTicket.attempts (Option.some.inj h'))
  | clearStore =>
    rw [step_clearStore] at h'
    have := lookup_clear h'
    rw [h] at this
    exact le_of_eq (congrArg StoredTicket.attempts (Option.some.inj this))
  | ensurePeriodic =>
    rw [step_ensurePeriodic] at h'
    rw [show ((s, ensurePeriodicSync m) : OfflineStore T × SyncState L).1 = s
      from rfl, h] at h'
    exact le_of_eq (congrArg StoredTicket.attempts (Option.some.inj h'))

theorem step_lookup_none_bounded {e : Event T} {s : OfflineStore T}
    {m : SyncState L} {k : Nat} (h : s.lookup k = none) (hk : k < s.nextKey) :
    (step e (s, m)).1.lookup k = none ∧ k < (step e (s, m)).1.nextKey := by
  cases e with
  | enqueue t now idbOk =>
    rw [step_enqueue]
    constructor
    · exact lookup_queueTicket_none (by rw [lookup_init]; exact h)
        (by rw [nextKey_init]; exact hk) t now
    · calc k < (s.init idbOk).nextKey := by rw [nextKey_init]; exact hk
        _ ≤ _ := nextKey_queueTicket_le t now _
  | pass idbOk submitOk now =>
    rw [step_pass]
    exact ⟨syncPendingTickets_lookup_none h,
           by rw [show ((syncPendingTickets idbOk submitOk now s m).store,
                    (syncPendingTickets idbOk submitOk now s m).mgr).1 =
                    (syncPendingTickets idbOk submitOk now s m).store from rfl,
                  syncPendingTickets_nextKey]
              exact hk⟩
  | tick idbOk submitOk now =>
    rw [step_tick]
    by_cases h1 : m.intervalActive = true
    · rw [if_pos h1]
      by_cases h2 : s.getPendingCount > 0
      · rw [if_pos h2]
        exact ⟨syncPendingTickets_lookup_none h,
               by rw [show ((syncPendingTickets idbOk submitOk now s m).store,
                        (syncPendingTickets idbOk submitOk now s m).mgr).1 =
                        (syncPendingTickets idbOk submitOk now s m).store from rfl,
                      syncPendingTickets_nextKey]
                  exact hk⟩
      · rw [if_neg h2]
        exact ⟨h, hk⟩
    · rw [if_neg h1]
      exact ⟨h, hk⟩
  | clearStore =>
    rw [step_clearStore]
    exact ⟨lookup_clear_none h,
           by rw [show ((s.clear, m) : OfflineStore T × SyncState L).1 = s.clear
                from rfl, nextKey_clear]
              exact hk⟩
  | ensurePeriodic =>
    rw [step_ensurePeriodic]
    exact ⟨h, hk⟩

theorem step_nextKey_mono (e : Event T) (s : OfflineStore T) (m : SyncState L) :
    s.nextKey ≤ (step e (s, m)).1.nextKey := by
  cases e with
  | enqueue t now idbOk =>
    rw [step_enqueue]
    calc s.nextKey = (s.init idbOk).nextKey := (nextKey_init idbOk s).symm
      _ ≤ _ := nextKey_queueTicket_le t now _
  | pass idbOk submitOk now =>
    rw [step_pass]
    exact le_of_eq (syncPendingTickets_nextKey (m := m)).symm
  | tick idbOk submitOk now =>
    rw [step_tick]
    by_cases h1 : m.intervalActive = true
    · rw [if_pos h1]
      by_cases h2 : s.getPendingCount > 0
      · rw [if_pos h2]
        exact le_of_eq (syncPendingTickets_nextKey (m := m)).symm
      · rw [if_neg h2]
    · rw [if_neg h1]
  | clearStore =>
    rw [step_clearStore]
    exact le_of_eq (nextKey_clear s).symm
  | ensurePeriodic =>
    rw [step_ensurePeriodic]

theorem run_lookup_none_bounded {k : Nat} :
    ∀ {es : List (Event T)} {s : OfflineStore T} {m : SyncState L},
    s.lookup k = none → k < s.nextKey →
    (run es (s, m)).1.lookup k = none ∧ k < (run es (s, m)).1.nextKey := by
  intro es
  induction es with
  | nil => intro s m h hk; exact ⟨h, hk⟩
  | cons e es ih =>
    intro s m h hk
    have hstep := step_lookup_none_bounded (e := e) (m := m) h hk
    rcases hstep with ⟨h1, h2⟩
    rcases hp : step e (s, m) with ⟨s₁, m₁⟩
    rw [hp] at h1 h2
    have : run (e :: es) (s, m) = run es (s₁, m₁) := by
      unfold run
      rw [List.foldl_cons, hp]
    rw [this]
    exact ih h1 h2

/-- `attempts` is monotone along any sequence of runtime events, for a key
present at the start and at the end. -/
theorem run_lookup_mono {k : Nat} :
    ∀ {es : List (Event T)} {s : OfflineStore T} {m : SyncState L}
    {r r' : StoredTicket T},
    WF s → s.lookup k = some r → (run es (s, m)).1.lookup k = some r' →
    r.attempts ≤ r'.attempts := by
  intro es
  induction es with
  | nil =>
    intro s m r r' _ h h'
    have h'' : s.lookup k = some r' := h'
    rw [h] at h''
    exact le_of_eq (congrArg StoredTicket.attempts (Option.some.inj h''))
  | cons e es ih =>
    intro s m r r' hwf h h'
    rcases hp : step e (s, m) with ⟨s₁, m₁⟩
    have hrun : run (e :: es) (s, m) = run es (s₁, m₁) := by
      unfold run
      rw [List.foldl_cons, hp]
    rw [hrun] at h'
    have hwf₁ : WF s₁ := by
      have := step_WF (e := e) (m := m) hwf
      rw [hp] at this
      exact this
    cases hs₁ : s₁.lookup k with
    | none =>
      have hklt : k < s.nextKey := hwf.2 (k, r) (dbGet_some_mem h)
      have hklt₁ : k < s₁.nextKey := by
        have hmono := step_nextKey_mono e s m
        rw [hp] at hmono
        exact Nat.lt_of_lt_of_le hklt hmono
      have hnone := (@run_lookup_none_bounded T L k es s₁ m₁ hs₁ hklt₁).1
      rw [h'] at hnone
      exact absurd hnone (by simp)
    | some r₁ =>
      have hm : r.attempts ≤ r₁.attempts := by
        have hsm : (step e (s, m)).1.lookup k = some r₁ := by
          rw [hp]
          exact hs₁
        exact step_lookup_mono (e := e) (m := m) hwf h hsm
      exact Nat.le_trans hm (ih hwf₁ hs₁ h')

end Event

namespace SyncManager

variable {T L : Type}

open OfflineStore

theorem ensurePeriodicSync_active (m : SyncState L) :
    (ensurePeriodicSync m).intervalActive = true := by
  unfold ensurePeriodicSync startPeriodicSync
  split
  · next h => exact h
  · rfl

/-- A pass never turns the periodic timer on. -/
theorem syncPendingTickets_intervalActive_false {idbOk : Bool}
    {submitOk : Nat → Bool} {now : Nat} {s : OfflineStore T} {m : SyncState L}
    (h : m.intervalActive = false) :
    (syncPendingTickets idbOk submitOk now s m).mgr.intervalActive = false := by
  by_cases hsync : m.isSyncing = true
  · have : (syncPendingTickets idbOk submitOk now s m).mgr = m := by
      simp [syncPendingTickets, hsync]
    rw [this]
    exact h
  · have hsync' : m.isSyncing = false := by
      cases hb : m.isSyncing
      · rfl
      · exact absurd hb hsync
    simp only [syncPendingTickets_run hsync']
    split
    · rfl
    · exact h

/-- A completed pass whose refreshed pending count is zero clears the timer. -/
theorem syncPendingTickets_quiesce {idbOk : Bool} {submitOk : Nat → Bool}
    {now : Nat} {s : OfflineStore T} {m : SyncState L}
    (hsync : m.isSyncing = false)
    (hc : (syncPendingTickets idbOk submitOk now s m).store.getPendingCount = 0) :
    (syncPendingTickets idbOk submitOk now s m).mgr.intervalActive = false := by
  simp only [syncPendingTickets_run hsync] at hc ⊢
  rw [if_pos hc]

end SyncManager

namespace Event

variable {T L : Type}

open OfflineStore SyncManager

theorem step_intervalActive_false {e : Event T} {s : OfflineStore T}
    {m : SyncState L} (h : m.intervalActive = false)
    (hpt : isPassOrTick e = true) : (step e (s, m)).2.intervalActive = false := by
  cases e with
  | enqueue t now idbOk => exact absurd hpt (by simp [isPassOrTick])
  | pass idbOk submitOk now =>
    rw [step_pass]
    exact syncPendingTickets_intervalActive_false h
  | tick idbOk submitOk now =>
    rw [step_tick, if_neg (by rw [h]; exact Bool.false_ne_true)]
    exact h
  | clearStore => exact absurd hpt (by simp [isPassOrTick])
  | ensurePeriodic => exact absurd hpt (by simp [isPassOrTick])

/-- Once the timer is off, any sequence of passes and ticks leaves it off. -/
theorem run_intervalActive_false :
    ∀ {es : List (Event T)} {s : OfflineStore T} {m : SyncState L},
    m.intervalActive = false → (∀ e ∈ es, isPassOrTick e = true) →
    (run es (s, m)).2.intervalActive = false := by
  intro es
  induction es with
  | nil => intro s m h _; exact h
  | cons e es ih =>
    intro s m h hpt
    rcases hp : step e (s, m) with ⟨s₁, m₁⟩
    have hrun : run (e :: es) (s, m) = run es (s₁, m₁) := by
      unfold run
      rw [List.foldl_cons, hp]
    rw [hrun]
    have h₁ : m₁.intervalActive = false := by
      have := step_intervalActive_false (e := e) (s := s) (m := m) h
        (hpt e (List.mem_cons_self e es))
      rw [hp] at this
      exact this
    exact ih h₁ (fun e' he' => hpt e' (List.mem_cons_of_mem e he'))

end Event

/-! ## Producer-side request shapes (`apiService.ts`) -/

/-- The observable shape of an HTTP request issued via `fetch`. -/
structure HttpRequest where
  method : String
  url : String
  headers : List (String × String)
  body : String
deriving DecidableEq, Repr

/-- `getAuthHeaders()` from `apiService.ts`: an `Authorization` bearer header
for the acquired access token plus the JSON content type (both the silent
and the popup path return this same shape). -/
def getAuthHeaders (token : String) : List (String × String) :=
  [("Authorization", "Bearer " ++ token), ("Content-Type", "application/json")]

/-- The POST issued by `apiService.saveTicket`: `fetch(`/api/tickets`)` with
the headers from `getAuthHeaders` and the JSON-serialized ticket as body
(`stringify` stands for `JSON.stringify`). -/
def saveTicketRequest {T : Type} (stringify : T → String) (token : String)
    (ticket : T) : HttpRequest :=
  { method := "POST", url := "/api/tickets", headers := getAuthHeaders token,
    body := stringify ticket }

/-- The direct `fetch` issued by `SyncManager.syncPendingTickets` for a
queued ticket: same method, URL and body, but only a `Content-Type` header. -/
def syncFetchRequest {T : Type} (stringify : T → String) (ticket : T) :
    HttpRequest :=
  { method := "POST", url := "/api/tickets",
    headers := [("Content-Type", "application/json")],
    body := stringify ticket }

/-! ## Claims -/

open OfflineStore SyncManager in
/-- Claim C1, counterexample: a sync pass over a store containing only one
dead-lettered record (`attempts = 10 = MAX_RETRY_ATTEMPTS`) does not return
`{synced: 0, failed: 0}` — it returns `{synced: 0, failed: 1}`, because the
dead-letter branch increments `failed` on every pass, not only on the pass
that dead-lettered the record. -/
theorem deadletter_refail_counterexample :
    (syncPendingTickets (T := Nat) (L := Nat) true (fun _ => true) 100
      ⟨[(0, ⟨7, 10, 5, 1⟩)], 1, true, true⟩ ⟨false, false, false, []⟩).synced = 0 ∧
    (syncPendingTickets (T := Nat) (L := Nat) true (fun _ => true) 100
      ⟨[(0, ⟨7, 10, 5, 1⟩)], 1, true, true⟩ ⟨false, false, false, []⟩).failed = 1 ∧
    ((syncPendingTickets (T := Nat) (L := Nat) true (fun _ => true) 100
        ⟨[(0, ⟨7, 10, 5, 1⟩)], 1, true, true⟩ ⟨false, false, false, []⟩).synced,
     (syncPendingTickets (T := Nat) (L := Nat) true (fun _ => true) 100
        ⟨[(0, ⟨7, 10, 5, 1⟩)], 1, true, true⟩ ⟨false, false, false, []⟩).failed)
      ≠ (0, 0) := by
  refine ⟨rfl, rfl, ?_⟩
  decide

open OfflineStore SyncManager in
/-- Claim C1 (amended): a record whose `attempts` has reached
`MAX_RETRY_ATTEMPTS` is skipped by a sync pass without a delivery attempt
(its stored entry is untouched), but it is counted in the returned `failed`
tally on every pass: a completed pass over a store in which every listed
record is dead-lettered returns `synced = 0` and `failed` equal to the
number of listed records (not `failed = 0`). -/
theorem deadletter_skip_and_refail {T L : Type} {idbOk : Bool}
    {submitOk : Nat → Bool} {now : Nat} {s : OfflineStore T} {m : SyncState L}
    (hwf : WF s) (hsync : m.isSyncing = false) :
    (∀ k r, (k, r) ∈ (s.init idbOk).getPendingTickets →
      r.attempts ≥ MAX_RETRY_ATTEMPTS →
      (syncPendingTickets idbOk submitOk now s m).store.lookup k = some r) ∧
    ((∀ e ∈ (s.init idbOk).getPendingTickets,
        e.2.attempts ≥ MAX_RETRY_ATTEMPTS) →
      (syncPendingTickets idbOk submitOk now s m).synced = 0 ∧
      (syncPendingTickets idbOk submitOk now s m).failed =
        ((s.init idbOk).getPendingTickets).length) := by
  constructor
  · intro k r hmem hdead
    rw [syncPendingTickets_lookup_listed hwf hsync hmem, if_pos hdead]
  · intro hall
    obtain ⟨hs, hf⟩ := syncPendingTickets_tallies idbOk submitOk now s hsync
    constructor
    · rw [hs]
      apply List.countP_eq_zero.mpr
      intro e he
      have := hall e he
      simp only [Bool.and_eq_true, decide_eq_true_eq]
      intro hc
      omega
    · rw [hf]
      apply List.countP_eq_length.mpr
      intro e he
      have := hall e he
      simp only [Bool.or_eq_true, decide_eq_true_eq]
      left
      omega

open OfflineStore SyncManager in
/-- Witness for C1 (amended), on a store holding exactly one dead-lettered
record. -/
theorem deadletter_skip_and_refail_witness :
    (syncPendingTickets (T := Nat) (L := Nat) true (fun _ => true) 9
      ⟨[(0, ⟨7, 10, 5, 1⟩)], 1, true, true⟩ ⟨false, false, false, []⟩).store.lookup 0 =
        some ⟨7, 10, 5, 1⟩ ∧
    (syncPendingTickets (T := Nat) (L := Nat) true (fun _ => true) 9
      ⟨[(0, ⟨7, 10, 5, 1⟩)], 1, true, true⟩ ⟨false, false, false, []⟩).synced = 0 ∧
    (syncPendingTickets (T := Nat) (L := Nat) true (fun _ => true) 9
      ⟨[(0, ⟨7, 10, 5, 1⟩)], 1, true, true⟩ ⟨false, false, false, []⟩).failed =
      (((⟨[(0, ⟨7, 10, 5, 1⟩)], 1, true, true⟩ : OfflineStore Nat).init
          true).getPendingTickets).length :=
  ⟨(deadletter_skip_and_refail (by decide) rfl).1 0 ⟨7, 10, 5, 1⟩ (by decide)
      (by decide),
   ((deadletter_skip_and_refail (by decide) rfl).2 (by decide)).1,
   ((deadletter_skip_and_refail (by decide) rfl).2 (by decide)).2⟩

open OfflineStore SyncManager in
/-- Claim C2: in a completed sync pass, every listed record with
`attempts < MAX_RETRY_ATTEMPTS` is removed from the store when its replay
succeeds, and otherwise stays with `attempts` incremented by one and
`lastAttempt` set to the pass's current time; the returned `synced` tally
counts exactly the successfully replayed non-dead-letter records and the
`failed` tally counts exactly the dead-lettered and failed ones. -/
theorem sync_pass_listed_record {T L : Type} {idbOk : Bool}
    {submitOk : Nat → Bool} {now : Nat} {s : OfflineStore T} {m : SyncState L}
    {k : Nat} {r : StoredTicket T} (hwf : WF s) (hsync : m.isSyncing = false)
    (hmem : (k, r) ∈ (s.init idbOk).getPendingTickets)
    (hlt : r.attempts < MAX_RETRY_ATTEMPTS) :
    (submitOk k = true →
      (syncPendingTickets idbOk submitOk now s m).store.lookup k = none) ∧
    (submitOk k = false →
      (syncPendingTickets idbOk submitOk now s m).store.lookup k =
        some { r with attempts := r.attempts + 1, lastAttempt := now }) ∧
    (syncPendingTickets idbOk submitOk now s m).synced =
      ((s.init idbOk).getPendingTickets).countP
        (fun e => decide (e.2.attempts < MAX_RETRY_ATTEMPTS) && submitOk e.1) ∧
    (syncPendingTickets idbOk submitOk now s m).failed =
      ((s.init idbOk).getPendingTickets).countP
        (fun e => decide (e.2.attempts ≥ MAX_RETRY_ATTEMPTS) || !submitOk e.1) := by
  obtain ⟨hs, hf⟩ := syncPendingTickets_tallies idbOk submitOk now s hsync
  refine ⟨?_, ?_, hs, hf⟩
  · intro hok
    rw [syncPendingTickets_lookup_listed hwf hsync hmem,
        if_neg (by omega), if_pos hok]
  · intro hko
    rw [syncPendingTickets_lookup_listed hwf hsync hmem,
        if_neg (by omega), if_neg (by rw [hko]; exact Bool.false_ne_true)]

open OfflineStore SyncManager in
/-- Witness for C2: a pass over two records where the replay of key 0
succeeds and the replay of key 1 fails. -/
theorem sync_pass_listed_record_witness :
    (syncPendingTickets (T := Nat) (L := Nat) true (fun k => k == 0) 9
      ⟨[(0, ⟨5, 0, 0, 0⟩), (1, ⟨6, 2, 0, 0⟩)], 2, true, true⟩
      ⟨false, false, false, []⟩).store.lookup 0 = none ∧
    (syncPendingTickets (T := Nat) (L := Nat) true (fun k => k == 0) 9
      ⟨[(0, ⟨5, 0, 0, 0⟩), (1, ⟨6, 2, 0, 0⟩)], 2, true, true⟩
      ⟨false, false, false, []⟩).store.lookup 1 = some ⟨6, 3, 9, 0⟩ ∧
    (syncPendingTickets (T := Nat) (L := Nat) true (fun k => k == 0) 9
      ⟨[(0, ⟨5, 0, 0, 0⟩), (1, ⟨6, 2, 0, 0⟩)], 2, true, true⟩
      ⟨false, false, false, []⟩).synced = 1 ∧
    (syncPendingTickets (T := Nat) (L := Nat) true (fun k => k == 0) 9
      ⟨[(0, ⟨5, 0, 0, 0⟩), (1, ⟨6, 2, 0, 0⟩)], 2, true, true⟩
      ⟨false, false, false, []⟩).failed = 1 :=
  ⟨(@sync_pass_listed_record Nat Nat true (fun k => k == 0) 9
      ⟨[(0, ⟨5, 0, 0, 0⟩), (1, ⟨6, 2, 0, 0⟩)], 2, true, true⟩
      ⟨false, false, false, []⟩ 0 ⟨5, 0, 0, 0⟩
      (by decide) rfl (by decide) (by decide)).1 rfl,
   (@sync_pass_listed_record Nat Nat true (fun k => k == 0) 9
      ⟨[(0, ⟨5, 0, 0, 0⟩), (1, ⟨6, 2, 0, 0⟩)], 2, true, true⟩
      ⟨false, false, false, []⟩ 1 ⟨6, 2, 0, 0⟩
      (by decide) rfl (by decide) (by decide)).2.1 rfl,
   ((@sync_pass_listed_record Nat Nat true (fun k => k == 0) 9
      ⟨[(0, ⟨5, 0, 0, 0⟩), (1, ⟨6, 2, 0, 0⟩)], 2, true, true⟩
      ⟨false, false, false, []⟩ 0 ⟨5, 0, 0, 0⟩
      (by decide) rfl (by decide) (by decide)).2.2.1).trans (by decide),
   ((@sync_pass_listed_record Nat Nat true (fun k => k == 0) 9
      ⟨[(0, ⟨5, 0, 0, 0⟩), (1, ⟨6, 2, 0, 0⟩)], 2, true, true⟩
      ⟨false, false, false, []⟩ 0 ⟨5, 0, 0, 0⟩
      (by decide) rfl (by decide) (by decide)).2.2.2).trans (by decide)⟩

open OfflineStore SyncManager in
/-- Claim C3: invoking `syncPendingTickets()` while `isSyncing` is already
true returns `{synced: 0, failed: 0}` immediately: the store is returned
entirely unchanged (no record read, removed or updated), the manager state
is unchanged, and no listener is notified. -/
theorem sync_noop_when_syncing {T L : Type} {idbOk : Bool}
    {submitOk : Nat → Bool} {now : Nat} {s : OfflineStore T} {m : SyncState L}
    (h : m.isSyncing = true) :
    syncPendingTickets idbOk submitOk now s m = ⟨s, m, 0, 0, []⟩ := by
  simp [syncPendingTickets, h]

open OfflineStore SyncManager in
/-- Witness for C3. -/
theorem sync_noop_when_syncing_witness :
    syncPendingTickets (T := Nat) (L := Nat) true (fun _ => true) 3
      ⟨[(0, ⟨5, 1, 2, 3⟩)], 1, true, true⟩ ⟨true, true, false, [4]⟩ =
      ⟨⟨[(0, ⟨5, 1, 2, 3⟩)], 1, true, true⟩, ⟨true, true, false, [4]⟩, 0, 0, []⟩ :=
  sync_noop_when_syncing rfl

open OfflineStore in
/-- Claim C5: when the store is unavailable (`isAvailable()` false, i.e.
initialization failed or never produced an open database), every store
operation is a total no-op: `queueTicket` stores nothing, `getPendingCount`
returns 0, `getPendingTickets` returns the empty list, and `removeTicket`,
`updateTicket` and `clear` leave the store unchanged. -/
theorem unavailable_store_noop {T : Type} {s : OfflineStore T}
    (h : s.isAvailable = false) :
    (∀ (t : T) (now : Nat), s.queueTicket t now = s) ∧
    s.getPendingCount = 0 ∧
    s.getPendingTickets = [] ∧
    (∀ k, s.removeTicket k = s) ∧
    (∀ k u, s.updateTicket k u = s) ∧
    s.clear = s := by
  refine ⟨?_, ?_, ?_, ?_, ?_, ?_⟩
  · intro t now
    unfold queueTicket
    rw [if_neg (by rw [h]; exact Bool.false_ne_true)]
  · unfold getPendingCount
    rw [if_neg (by rw [h]; exact Bool.false_ne_true)]
  · unfold getPendingTickets
    rw [if_neg (by rw [h]; exact Bool.false_ne_true)]
  · intro k
    unfold removeTicket
    rw [if_neg (by rw [h]; exact Bool.false_ne_true)]
  · intro k u
    unfold updateTicket
    rw [if_neg (by rw [h]; exact Bool.false_ne_true)]
  · unfold clear
    rw [if_neg (by rw [h]; exact Bool.false_ne_true)]

open OfflineStore in
/-- Witness for C5, on a store whose initialization failed
(`available = false`) while records persist in the backing database. -/
theorem unavailable_store_noop_witness :
    (⟨[(3, ⟨1, 2, 3, 4⟩)], 5, false, true⟩ : OfflineStore Nat).queueTicket 9 2 =
      ⟨[(3, ⟨1, 2, 3, 4⟩)], 5, false, true⟩ ∧
    (⟨[(3, ⟨1, 2, 3, 4⟩)], 5, false, true⟩ : OfflineStore Nat).getPendingCount = 0 ∧
    (⟨[(3, ⟨1, 2, 3, 4⟩)], 5, false, true⟩ : OfflineStore Nat).getPendingTickets = [] ∧
    (⟨[(3, ⟨1, 2, 3, 4⟩)], 5, false, true⟩ : OfflineStore Nat).removeTicket 3 =
      ⟨[(3, ⟨1, 2, 3, 4⟩)], 5, false, true⟩ ∧
    (⟨[(3, ⟨1, 2, 3, 4⟩)], 5, false, true⟩ : OfflineStore Nat).updateTicket 3
        ⟨some 9, some 9⟩ = ⟨[(3, ⟨1, 2, 3, 4⟩)], 5, false, true⟩ ∧
    (⟨[(3, ⟨1, 2, 3, 4⟩)], 5, false, true⟩ : OfflineStore Nat).clear =
      ⟨[(3, ⟨1, 2, 3, 4⟩)], 5, false, true⟩ :=
  ⟨(unavailable_store_noop (by decide)).1 9 2,
   (unavailable_store_noop (by decide)).2.1,
   (unavailable_store_noop (by decide)).2.2.1,
   (unavailable_store_noop (by decide)).2.2.2.1 3,
   (unavailable_store_noop (by decide)).2.2.2.2.1 3 ⟨some 9, some 9⟩,
   (unavailable_store_noop (by decide)).2.2.2.2.2⟩

open OfflineStore in
/-- Claim C6: `updateTicket` on a key absent from the store leaves the
store entirely unchanged — it never creates or recreates a record under
that key. -/
theorem updateTicket_absent_key_noop {T : Type} {s : OfflineStore T} {k : Nat}
    (h : s.lookup k = none) (u : TicketUpdates) : s.updateTicket k u = s :=
  lookup_updateTicket_none h u

open OfflineStore in
/-- Witness for C6: updating key 5, which is absent. -/
theorem updateTicket_absent_key_noop_witness :
    (⟨[(0, ⟨1, 2, 3, 4⟩)], 1, true, true⟩ : OfflineStore Nat).lookup 5 = none ∧
    (⟨[(0, ⟨1, 2, 3, 4⟩)], 1, true, true⟩ : OfflineStore Nat).updateTicket 5
        ⟨some 7, some 8⟩ = ⟨[(0, ⟨1, 2, 3, 4⟩)], 1, true, true⟩ :=
  ⟨by decide, updateTicket_absent_key_noop (by decide) ⟨some 7, some 8⟩⟩

open OfflineStore in
/-- Claim C8: for a record present under key `k`, `updateTicket` only
touches that record's `attempts` and `lastAttempt`: the stored record at
`k` keeps its `ticket` payload and `createdAt` unchanged, and every other
key maps to exactly the same record as before. -/
theorem updateTicket_frame {T : Type} {s : OfflineStore T} {k : Nat}
    {r : StoredTicket T} (h : s.lookup k = some r) (u : TicketUpdates) :
    (∃ r', (s.updateTicket k u).lookup k = some r' ∧
      r'.ticket = r.ticket ∧ r'.createdAt = r.createdAt) ∧
    (∀ k', k' ≠ k → (s.updateTicket k u).lookup k' = s.lookup k') := by
  constructor
  · by_cases hav : s.isAvailable = true
    · exact ⟨_, lookup_updateTicket_self h hav u, rfl, rfl⟩
    · have hid : s.updateTicket k u = s := by
        unfold updateTicket
        rw [if_neg hav]
      rw [hid]
      exact ⟨r, h, rfl, rfl⟩
  · intro k' hk'
    exact lookup_updateTicket_other hk' u

open OfflineStore in
/-- Witness for C8: updating key 0 in a two-record store. -/
theorem updateTicket_frame_witness :
    (∃ r', ((⟨[(0, ⟨1, 2, 3, 4⟩), (1, ⟨9, 0, 0, 0⟩)], 2, true, true⟩ :
        OfflineStore Nat).updateTicket 0 ⟨some 3, some 50⟩).lookup 0 = some r' ∧
      r'.ticket = (⟨1, 2, 3, 4⟩ : StoredTicket Nat).ticket ∧
      r'.createdAt = (⟨1, 2, 3, 4⟩ : StoredTicket Nat).createdAt) ∧
    ((⟨[(0, ⟨1, 2, 3, 4⟩), (1, ⟨9, 0, 0, 0⟩)], 2, true, true⟩ :
        OfflineStore Nat).updateTicket 0 ⟨some 3, some 50⟩).lookup 1 =
      (⟨[(0, ⟨1, 2, 3, 4⟩), (1, ⟨9, 0, 0, 0⟩)], 2, true, true⟩ :
        OfflineStore Nat).lookup 1 :=
  ⟨(@updateTicket_frame Nat ⟨[(0, ⟨1, 2, 3, 4⟩), (1, ⟨9, 0, 0, 0⟩)], 2, true, true⟩
      0 ⟨1, 2, 3, 4⟩ (by decide) ⟨some 3, some 50⟩).1,
   (@updateTicket_frame Nat ⟨[(0, ⟨1, 2, 3, 4⟩), (1, ⟨9, 0, 0, 0⟩)], 2, true, true⟩
      0 ⟨1, 2, 3, 4⟩ (by decide) ⟨some 3, some 50⟩).2 1 (by decide)⟩

open OfflineStore SyncManager in
/-- Claim C4: a completed sync pass whose refreshed pending count is zero
leaves the periodic timer cancelled (`intervalId` cleared); a periodic tick
that observes a pending count of zero likewise cancels the timer; once the
timer is off, no sequence of passes and ticks turns it back on; and an
enqueue re-starts it through `ensurePeriodicSync`. -/
theorem periodic_timer_quiescence (T L : Type) :
    (∀ (b : Bool) (f : Nat → Bool) (n : Nat) (s : OfflineStore T)
       (m : SyncState L),
      m.isSyncing = false →
      (syncPendingTickets b f n s m).store.getPendingCount = 0 →
      (syncPendingTickets b f n s m).mgr.intervalActive = false) ∧
    (∀ (b : Bool) (f : Nat → Bool) (n : Nat) (s : OfflineStore T)
       (m : SyncState L),
      m.intervalActive = true → s.getPendingCount = 0 →
      (Event.step (Event.tick b f n) (s, m)).2.intervalActive = false) ∧
    (∀ (es : List (Event T)) (s : OfflineStore T) (m : SyncState L),
      m.intervalActive = false → (∀ e ∈ es, Event.isPassOrTick e = true) →
      (Event.run es (s, m)).2.intervalActive = false) ∧
    (∀ (t : T) (n : Nat) (b : Bool) (s : OfflineStore T) (m : SyncState L),
      (Event.step (Event.enqueue t n b) (s, m)).2.intervalActive = true) := by
  refine ⟨?_, ?_, ?_, ?_⟩
  · intro b f n s m hsync hc
    exact syncPendingTickets_quiesce hsync hc
  · intro b f n s m hact hc
    rw [Event.step_tick, if_pos hact, if_neg (by omega)]
  · intro es s m h hp
    exact Event.run_intervalActive_false h hp
  · intro t n b s m
    rw [Event.step_enqueue]
    exact ensurePeriodicSync_active m

open OfflineStore SyncManager in
/-- Witness for C4: a pass that drains the only record quiesces the timer;
a tick over an empty store cancels it; a pass alone never re-activates it;
an enqueue does. -/
theorem periodic_timer_quiescence_witness :
    (syncPendingTickets (T := Nat) (L := Nat) true (fun _ => true) 5
      ⟨[(0, ⟨3, 0, 0, 0⟩)], 1, true, true⟩
      ⟨false, true, false, []⟩).mgr.intervalActive = false ∧
    (Event.step (T := Nat) (L := Nat) (Event.tick true (fun _ => true) 5)
      (⟨[], 0, true, true⟩, ⟨false, true, false, []⟩)).2.intervalActive = false ∧
    (Event.run (T := Nat) (L := Nat) [Event.pass true (fun _ => true) 5]
      (⟨[], 0, true, true⟩, ⟨false, false, false, []⟩)).2.intervalActive = false ∧
    (Event.step (T := Nat) (L := Nat) (Event.enqueue 9 5 true)
      (⟨[], 0, true, true⟩, ⟨false, false, false, []⟩)).2.intervalActive = true :=
  ⟨(periodic_timer_quiescence Nat Nat).1 true (fun _ => true) 5
      ⟨[(0, ⟨3, 0, 0, 0⟩)], 1, true, true⟩ ⟨false, true, false, []⟩ rfl (by decide),
   (periodic_timer_quiescence Nat Nat).2.1 true (fun _ => true) 5
      ⟨[], 0, true, true⟩ ⟨false, true, false, []⟩ rfl rfl,
   (periodic_timer_quiescence Nat Nat).2.2.1 [Event.pass true (fun _ => true) 5]
      ⟨[], 0, true, true⟩ ⟨false, false, false, []⟩ rfl (by decide),
   (periodic_timer_quiescence Nat Nat).2.2.2 9 5 true
      ⟨[], 0, true, true⟩ ⟨false, false, false, []⟩⟩

open OfflineStore SyncManager in
/-- Claim C7: a record's `attempts` never decreases across any sequence of
queue operations (enqueue, sync pass, tick, clear) for as long as it stays
in the store, and a successful replay never increments it — the record is
removed instead. -/
theorem attempts_monotone (T L : Type) :
    (∀ (es : List (Event T)) (s : OfflineStore T) (m : SyncState L) (k : Nat)
       (r q : StoredTicket T),
      WF s → s.lookup k = some r → (Event.run es (s, m)).1.lookup k = some q →
      r.attempts ≤ q.attempts) ∧
    (∀ (b : Bool) (f : Nat → Bool) (n : Nat) (s : OfflineStore T)
       (m : SyncState L) (k : Nat) (r : StoredTicket T),
      WF s → m.isSyncing = false →
      (k, r) ∈ (s.init b).getPendingTickets →
      r.attempts < MAX_RETRY_ATTEMPTS → f k = true →
      (syncPendingTickets b f n s m).store.lookup k = none) := by
  constructor
  · intro es s m k r q hwf h hq
    exact Event.run_lookup_mono hwf h hq
  · intro b f n s m k r hwf hsync hmem hlt hok
    rw [syncPendingTickets_lookup_listed hwf hsync hmem, if_neg (by omega),
        if_pos hok]

open OfflineStore SyncManager in
/-- Witness for C7: a failing pass raises the record's `attempts` from 0 to
1; a succeeding pass removes it. -/
theorem attempts_monotone_witness :
    (⟨5, 0, 0, 0⟩ : StoredTicket Nat).attempts ≤
      (⟨5, 1, 7, 0⟩ : StoredTicket Nat).attempts ∧
    (syncPendingTickets (T := Nat) (L := Nat) true (fun _ => true) 7
      ⟨[(0, ⟨5, 0, 0, 0⟩)], 1, true, true⟩
      ⟨false, false, false, []⟩).store.lookup 0 = none :=
  ⟨(attempts_monotone Nat Nat).1 [Event.pass true (fun _ => false) 7]
      ⟨[(0, ⟨5, 0, 0, 0⟩)], 1, true, true⟩ ⟨false, false, false, []⟩ 0
      ⟨5, 0, 0, 0⟩ ⟨5, 1, 7, 0⟩ (by decide) (by decide) (by decide),
   (attempts_monotone Nat Nat).2 true (fun _ => true) 7
      ⟨[(0, ⟨5, 0, 0, 0⟩)], 1, true, true⟩ ⟨false, false, false, []⟩ 0
      ⟨5, 0, 0, 0⟩ (by decide) rfl (by decide) (by decide) rfl⟩

open SyncManager in
/-- Claim C9: registering the same listener function twice and then calling
either returned unsubscribe closure removes both registrations at once
(removal filters by function identity), so the listener appears twice
before unsubscribing, zero times after, and receives no notification from
any later `notifyListeners` call. -/
theorem duplicate_listener_unsubscribe_removes_both {L : Type} [DecidableEq L]
    (l : L) (m : SyncState L) (c : Nat) :
    (onCountChange l (onCountChange l m)).listeners.count l =
      m.listeners.count l + 2 ∧
    (unsubscribe l (onCountChange l (onCountChange l m))).listeners.count l = 0 ∧
    (l, c) ∉ notifyListeners c
      (unsubscribe l (onCountChange l (onCountChange l m))) := by
  refine ⟨?_, ?_, ?_⟩
  · show ((m.listeners ++ [l]) ++ [l]).count l = m.listeners.count l + 2
    rw [List.count_append, List.count_append]
    simp
  · show (((m.listeners ++ [l]) ++ [l]).filter (fun x => x ≠ l)).count l = 0
    rw [List.count_eq_zero]
    intro hmem
    have hf := List.mem_filter.mp hmem
    simp at hf
  · intro hmem
    rcases List.mem_map.mp hmem with ⟨x, hx, hxe⟩
    have hxl : x = l := congrArg Prod.fst hxe
    subst hxl
    have hf := List.mem_filter.mp hx
    simp at hf

open SyncManager in
/-- Claim C10: the POST a sync pass issues for a queued ticket is not the
same request `apiService.saveTicket` would issue for it: the replay carries
only a `Content-Type` header and no `Authorization` header, while
`saveTicket` sends the headers from `getAuthHeaders`, which include an
`Authorization` bearer token. -/
theorem sync_replay_not_equivalent_to_saveTicket {T : Type}
    (stringify : T → String) (token : String) (ticket : T) :
    syncFetchRequest stringify ticket ≠ saveTicketRequest stringify token ticket ∧
    (∀ v, ("Authorization", v) ∉ (syncFetchRequest stringify ticket).headers) ∧
    ("Authorization", "Bearer " ++ token) ∈
      (saveTicketRequest stringify token ticket).headers := by
  refine ⟨?_, ?_, ?_⟩
  · intro hc
    have hlen := congrArg (fun q => q.headers.length) hc
    simp [syncFetchRequest, saveTicketRequest, getAuthHeaders] at hlen
  · intro v hv
    have hs := List.mem_singleton.mp hv
    have h1 : "Authorization" = "Content-Type" := congrArg Prod.fst hs
    exact absurd h1 (by decide)
  · exact List.mem_cons_self _ _

end ITPortal
